import Mathlib

/-!
Verification of the allocator-agent market-data cache and screening engine.

This file is a shallow embedding, in Lean 4, of the data model and the core
algorithms of the repository:

* the SQLite-backed store (`stocks`, `fundamentals_annual`, `ownership`
  tables) and its read/write accessors (`src/agents/allocator/db.py`,
  `src/scripts/download_market_data.py`),
* the derived-ratio computation `calculate_roic`
  (`src/scripts/download_market_data.py`),
* the similarity engine `find_similar_companies`
  (`src/agents/allocator/tools.py`),
* the stage-1 screener `screen_database_initial`
  (`src/agents/allocator/tools.py`).

Modelling conventions:

* Python floats and SQL `REAL` values are modelled as rationals (`ℚ`);
  nullable columns and Python `None` as `Option ℚ` / `Option String`.
* The two transcendental functions the code uses (`np.log10` in the
  similarity score, SQL `POWER` with a fractional exponent in the CAGR)
  are taken as function parameters `lg : ℚ → ℚ` and `pw : ℚ → ℚ → ℚ`;
  theorems assume only properties that the real functions satisfy
  (`log10 2 > 0`, `log10 1 = 0`, monotonicity of powers above 1), and
  concrete witnesses instantiate them with simple rational stand-ins.
* A Python expression that raises (the division by a zero mean in
  `calc_metric_similarity`) is modelled by an `Option` result, `none`
  standing for the raised exception that the per-candidate handler turns
  into exclusion.
* SQLite row order inside a table is immaterial (all keyed access); the
  `ORDER BY` clauses are modelled by an insertion sort, whose output is a
  permutation of its input, which is all the membership properties below
  use.
-/

set_option autoImplicit false

namespace Allocator

/-! ## Generic helpers: SQL aggregates, sorting, Python rounding -/

/-- Non-`NULL` values of a column, in row order (SQL aggregates skip `NULL`s). -/
def sqlVals (xs : List (Option ℚ)) : List ℚ := xs.filterMap id

/-- SQL `MIN(col)`: least non-`NULL` value, `NULL` when every value is `NULL`. -/
def sqlMin (xs : List (Option ℚ)) : Option ℚ :=
  match sqlVals xs with
  | [] => none
  | v :: vs => some (vs.foldl min v)

/-- SQL `MAX(col)`: greatest non-`NULL` value, `NULL` when every value is `NULL`. -/
def sqlMax (xs : List (Option ℚ)) : Option ℚ :=
  match sqlVals xs with
  | [] => none
  | v :: vs => some (vs.foldl max v)

/-- SQL `AVG(col)`: mean of the non-`NULL` values, `NULL` when all are `NULL`. -/
def sqlAvg (xs : List (Option ℚ)) : Option ℚ :=
  match sqlVals xs with
  | [] => none
  | v :: vs => some ((vs.foldl (· + ·) v) / ((vs.length + 1 : ℕ) : ℚ))

/-- Insert an element in front of the first list element it ranks at least as
high as, per the boolean ranking `r a b` = "`a` sorts before `b`". -/
def insertRanked {α : Type} (r : α → α → Bool) (a : α) : List α → List α
  | [] => [a]
  | b :: bs => if r a b then a :: b :: bs else b :: insertRanked r a bs

/-- Insertion sort by the boolean ranking `r`; models the `ORDER BY` /
`list.sort` steps of the source, whose exact tie order the properties below
never rely on. -/
def sortRanked {α : Type} (r : α → α → Bool) : List α → List α
  | [] => []
  | a :: as => insertRanked r a (sortRanked r as)

/-- The round-half-even integer rounding used by Python's built-in `round`. -/
def roundHalfEven (q : ℚ) : ℤ :=
  if q - ⌊q⌋ < 1/2 then ⌊q⌋
  else if 1/2 < q - ⌊q⌋ then ⌊q⌋ + 1
  else if Even ⌊q⌋ then ⌊q⌋ else ⌊q⌋ + 1

/-- Python's `round(x, 2)`: round-half-even at two decimal places. -/
def pythonRound2 (q : ℚ) : ℚ := ((roundHalfEven (100 * q) : ℤ) : ℚ) / 100

/-! ## Data model: the SQLite store

Tables are modelled as lists of rows; row order inside a table is immaterial
because every access is keyed.  `INSERT OR REPLACE` (SQLite upsert against the
table's uniqueness constraint) removes any row with the same natural key and
inserts the new row. -/

/-- The caller-supplied column values of the `stocks` table
(`write_stock_info` in `db.py`); every column is nullable. -/
structure StockData where
  name : Option String
  sector : Option String
  industry : Option String
  market_cap : Option ℚ
  description : Option String
  beta : Option ℚ
  enterprise_value : Option ℚ
  quick_ratio : Option ℚ
  total_cash : Option ℚ
  total_debt : Option ℚ
  shares_short : Option ℚ
  implied_shares_outstanding : Option ℚ
  dividend_yield : Option ℚ
  dividend_rate : Option ℚ
  payout_ratio : Option ℚ
  forward_pe : Option ℚ
  forward_eps : Option ℚ
  peg_ratio : Option ℚ
  deriving DecidableEq

/-- One row of the `stocks` table: `symbol TEXT PRIMARY KEY`, the data
columns, and the `last_updated` timestamp set by the write. -/
structure StockRow where
  symbol : String
  data : StockData
  last_updated : ℤ
  deriving DecidableEq

/-- `db.write_stock_info`: `INSERT OR REPLACE INTO stocks ...` keyed by the
`symbol` primary key; `last_updated` is `datetime.now()`, passed as `now`. -/
def write_stock_info (table : List StockRow) (symbol : String) (data : StockData)
    (now : ℤ) : List StockRow :=
  ⟨symbol, data, now⟩ :: table.filter (fun r => r.symbol ≠ symbol)

/-- `db.get_stock_info`: `SELECT * FROM stocks WHERE symbol = ?`, first row or
`None`. -/
def get_stock_info (table : List StockRow) (symbol : String) : Option StockRow :=
  table.find? (fun r => r.symbol = symbol)

/-- The column values written by `db.write_fundamentals_annual`; every column
is nullable. -/
structure FundData where
  revenue : Option ℚ
  operating_income : Option ℚ
  net_income : Option ℚ
  total_assets : Option ℚ
  total_liabilities : Option ℚ
  shareholders_equity : Option ℚ
  operating_cash_flow : Option ℚ
  free_cash_flow : Option ℚ
  shares_outstanding : Option ℚ
  roic : Option ℚ
  roe : Option ℚ
  roa : Option ℚ
  ebitda : Option ℚ
  profit_margin : Option ℚ
  operating_margin : Option ℚ
  gross_margin : Option ℚ
  debt_to_equity : Option ℚ
  current_ratio : Option ℚ
  deriving DecidableEq

/-- One row of the `fundamentals_annual` table, whose natural key is
`UNIQUE(symbol, fiscal_year)`. -/
structure FundRow where
  symbol : String
  fiscal_year : ℤ
  data : FundData
  deriving DecidableEq

/-- `db.write_fundamentals_annual`: `INSERT OR REPLACE INTO fundamentals_annual
...` keyed by the `(symbol, fiscal_year)` uniqueness constraint. -/
def write_fundamentals_annual (table : List FundRow) (symbol : String) (year : ℤ)
    (data : FundData) : List FundRow :=
  ⟨symbol, year, data⟩ ::
    table.filter (fun r => ¬(r.symbol = symbol ∧ r.fiscal_year = year))

/-- The row a `... ORDER BY fiscal_year DESC LIMIT 1` query returns: the row
with the greatest fiscal year (keys are unique, so ties cannot occur). -/
def pickLatestFund : List FundRow → Option FundRow
  | [] => none
  | r :: rs => some (rs.foldl (fun a b => if a.fiscal_year < b.fiscal_year then b else a) r)

/-- `db.get_latest_fundamentals_annual`: `SELECT * FROM fundamentals_annual
WHERE symbol = ? ORDER BY fiscal_year DESC LIMIT 1`. -/
def get_latest_fundamentals_annual (table : List FundRow) (symbol : String) :
    Option FundRow :=
  pickLatestFund (table.filter (fun r => r.symbol = symbol))

/-- One row of the `ownership` table, keyed by `UNIQUE(symbol, as_of_date)`. -/
structure OwnershipRow where
  symbol : String
  as_of_date : ℤ
  insider_ownership_pct : Option ℚ
  institutional_ownership_pct : Option ℚ
  shares_outstanding : Option ℚ
  float_shares : Option ℚ
  deriving DecidableEq

/-- No two rows of `fundamentals_annual` share a `(symbol, fiscal_year)` key. -/
def FundKeyUnique (table : List FundRow) : Prop :=
  table.Pairwise (fun a b => ¬(a.symbol = b.symbol ∧ a.fiscal_year = b.fiscal_year))

/-! ## Derived-ratio computation -/

/-- `MarketDataDownloader.calculate_roic` from
`src/scripts/download_market_data.py`: `None` for Python-falsy inputs (absent
*or zero*, per `if not operating_income or not total_assets or not
current_liabilities`), `None` for non-positive invested capital, otherwise
`NOPAT / invested capital`. -/
def calculate_roic (operating_income total_assets current_liabilities : Option ℚ)
    (tax_rate : ℚ) : Option ℚ :=
  match operating_income, total_assets, current_liabilities with
  | some oi, some ta, some cl =>
    if oi = 0 ∨ ta = 0 ∨ cl = 0 then none
    else if ta - cl ≤ 0 then none
    else some (oi * (1 - tax_rate) / (ta - cl))
  | _, _, _ => none

/-! ## Similarity engine (`find_similar_companies`, `tools.py`) -/

/-- Python's `str.upper()`, used by `find_similar_companies` to exclude the
reference symbol from the candidate pool. -/
def pyUpper (s : String) : String := String.mk (s.data.map Char.toUpper)

/-- The metric bundle `get_stock_fundamentals` returns (restricted to the
fields `find_similar_companies` reads).  Every field is nullable: on a cache
hit the values come from nullable columns, on a cache miss from provider
fields that may be missing.  `sector` can be the string `"N/A"` (cache-miss
default) as well as `none` (a stored SQL `NULL`). -/
structure FundBundle where
  company_name : Option String
  sector : Option String
  industry : Option String
  market_cap : Option ℚ
  profit_margin : Option ℚ
  revenue_growth : Option ℚ
  roe : Option ℚ
  deriving DecidableEq

/-- A candidate symbol from the sector/industry taxonomy lookup together with
the outcome of fetching its fundamentals bundle (`none` models
`get_stock_fundamentals` returning an error dict, which the loop skips). -/
structure Candidate where
  symbol : String
  fetch : Option FundBundle
  deriving DecidableEq

/-- One element of the `similar_companies` result list. -/
structure SimilarEntry where
  symbol : String
  name : Option String
  similarity_score : ℚ
  market_cap : ℚ
  sector : Option String
  industry : Option String
  deriving DecidableEq

/-- The inner helper `calc_metric_similarity(ref_val, cand_val, max_points)`:
`0` when either value is `None` or zero, otherwise
`max(0, max_points × (1 − |ref − cand| / ((ref + cand)/2)))`.  When the mean
`(ref + cand)/2` is zero the Python division raises `ZeroDivisionError`,
modelled here as `none`; the per-candidate `except` handler turns it into
exclusion of the candidate. -/
def calc_metric_similarity (ref_val cand_val : Option ℚ) (max_points : ℚ) :
    Option ℚ :=
  match ref_val, cand_val with
  | some a, some b =>
    if a = 0 ∨ b = 0 then some 0
    else if (a + b) / 2 = 0 then none
    else some (max 0 (max_points * (1 - |(a - b) / ((a + b) / 2)|)))
  | _, _ => some 0

/-- The body of the per-candidate loop of `find_similar_companies`: `none`
when the candidate is skipped (fetch error, falsy market cap, market-cap
ratio outside [0.1, 2], sector mismatch, or a raised `ZeroDivisionError`),
otherwise the scored result entry.  `lg` stands for `np.log10`; `rmc` is the
reference market cap. -/
def processCandidate (lg : ℚ → ℚ) (ref : FundBundle) (rmc : ℚ) (c : Candidate) :
    Option SimilarEntry :=
  match c.fetch with
  | none => none
  | some f =>
    match f.market_cap with
    | none => none
    | some cmc =>
      if cmc = 0 then none
      else if cmc / rmc < 1/10 ∨ 2 < cmc / rmc then none
      else if f.sector ≠ ref.sector then none
      else
        match calc_metric_similarity ref.profit_margin f.profit_margin 15,
              calc_metric_similarity ref.revenue_growth f.revenue_growth 10,
              calc_metric_similarity ref.roe f.roe 5 with
        | some marginSim, some growthSim, some roeSim =>
          some { symbol := c.symbol
                 name := f.company_name
                 similarity_score :=
                   pythonRound2 ((if f.industry = ref.industry then (20:ℚ) else 0)
                     + max 0 (20 * (1 - |lg (cmc / rmc)| / lg 2))
                     + marginSim + growthSim + roeSim + 50)
                 market_cap := cmc
                 sector := f.sector
                 industry := f.industry }
        | _, _, _ => none

/-- Result of `find_similar_companies`: the three error-dict shapes the
source can return before scoring, or the success dict (entry list,
`total_candidates_analyzed`, `total_matches_found`). -/
inductive FindSimilarOutcome where
  | fetchError
  | insufficientRefData
  | noCandidates
  | ok (similar_companies : List SimilarEntry)
       (total_candidates : ℕ) (total_matches : ℕ)
  deriving DecidableEq

/-- The candidate pool after the source's
`candidates = [c for c in candidates if c.upper() != symbol.upper()]`. -/
def filteredPool (symbol : String) (pool : List Candidate) : List Candidate :=
  pool.filter (fun c => pyUpper c.symbol ≠ pyUpper symbol)

/-- The scored survivors, in pool order (the `similar_companies` list before
sorting): the per-candidate loop over the first 50 pool members. -/
def scoredCandidates (lg : ℚ → ℚ) (symbol : String) (ref : FundBundle) (rmc : ℚ)
    (pool : List Candidate) : List SimilarEntry :=
  ((filteredPool symbol pool).take 50).filterMap (processCandidate lg ref rmc)

/-- The body of `find_similar_companies` after the reference bundle has been
fetched successfully. -/
def find_similar_given_ref (lg : ℚ → ℚ) (symbol : String) (ref : FundBundle)
    (pool : List Candidate) (limit : ℕ) : FindSimilarOutcome :=
  match ref.market_cap with
  | none => .insufficientRefData
  | some rmc =>
    if ref.sector = some "N/A" ∨ rmc = 0 then .insufficientRefData
    else if (filteredPool symbol pool).isEmpty then .noCandidates
    else
      .ok ((sortRanked (fun a b => b.similarity_score ≤ a.similarity_score)
              (scoredCandidates lg symbol ref rmc pool)).take limit)
          (filteredPool symbol pool).length
          (scoredCandidates lg symbol ref rmc pool).length

/-- `find_similar_companies` from `tools.py`, given the already-fetched
reference bundle (`ref_fetch = none` models the reference fetch returning an
error dict) and the candidate pool discovered from the sector/industry
taxonomy (already deduplicated, as the source builds it). -/
def find_similar_companies (lg : ℚ → ℚ) (symbol : String)
    (ref_fetch : Option FundBundle) (pool : List Candidate) (limit : ℕ) :
    FindSimilarOutcome :=
  match ref_fetch with
  | none => .fetchError
  | some ref => find_similar_given_ref lg symbol ref pool limit

/-! ## Two-stage screener, stage 1 (`screen_database_initial`, `tools.py`) -/

/-- The rows the `historical_metrics` CTE aggregates for one symbol:
`FROM fundamentals_annual WHERE fiscal_year >= 2020 GROUP BY symbol`. -/
def histRows (fund : List FundRow) (sym : String) : List FundRow :=
  fund.filter (fun r => r.symbol = sym ∧ 2020 ≤ r.fiscal_year)

/-- The `revenue_cagr_5yr` CASE expression:
`POWER(MAX(revenue) * 1.0 / MIN(revenue), 1.0 / (COUNT(*) - 1)) - 1` when
`MIN(revenue) > 0 AND MAX(revenue) > 0 AND COUNT(*) > 1`, else `NULL` (a
`NULL` comparison also falls to the ELSE branch).  `pw` stands for SQL
`POWER`; `revs` is the revenue column of the symbol's group, so `COUNT(*)` is
its length. -/
def revenueCagr (pw : ℚ → ℚ → ℚ) (revs : List (Option ℚ)) : Option ℚ :=
  match sqlMin revs, sqlMax revs with
  | some mn, some mx =>
    if 0 < mn ∧ 0 < mx ∧ 1 < revs.length then
      some (pw (mx / mn) (1 / ((revs.length : ℚ) - 1)) - 1)
    else none
  | _, _ => none

/-- The `latest_metrics` CTE row for one symbol: the `fundamentals_annual` row
whose `fiscal_year` is the symbol's maximum (no year cutoff here). -/
def latestFundRow (fund : List FundRow) (sym : String) : Option FundRow :=
  get_latest_fundamentals_annual fund sym

/-- The latest-`as_of_date` `ownership` row for one symbol (the correlated
subquery of the ownership join). -/
def pickLatestOwn : List OwnershipRow → Option OwnershipRow
  | [] => none
  | r :: rs => some (rs.foldl (fun a b => if a.as_of_date < b.as_of_date then b else a) r)

/-- Latest ownership row join for one symbol. -/
def latestOwnRow (own : List OwnershipRow) (sym : String) : Option OwnershipRow :=
  pickLatestOwn (own.filter (fun r => r.symbol = sym))

/-- One element of the `stocks` list `screen_database_initial` returns
(the minimal stage-1 field set). -/
structure ScreenEntry where
  symbol : String
  name : Option String
  sector : Option String
  market_cap : Option ℚ
  roic : Option ℚ
  roe : Option ℚ
  profit_margin : Option ℚ
  revenue_cagr : Option ℚ
  debt_to_equity : Option ℚ
  free_cash_flow : Option ℚ
  operating_cash_flow : Option ℚ
  insider_ownership_pct : Option ℚ
  institutional_ownership_pct : Option ℚ
  deriving DecidableEq

/-- The caller-supplied filter parameters of `screen_database_initial`.
`sectors = []` models both `None` and an empty list (`if sectors:` applies no
filter for either). -/
structure ScreenFilters where
  min_roic : Option ℚ
  min_roe : Option ℚ
  min_profit_margin : Option ℚ
  max_debt_to_equity : Option ℚ
  min_market_cap : Option ℚ
  max_market_cap : Option ℚ
  min_revenue_growth : Option ℚ
  sectors : List String
  limit : ℕ
  deriving DecidableEq

/-- The joined SELECT row for one `stocks` row: `none` when the symbol has
fewer than 3 rows with `fiscal_year >= 2020` (the INNER JOIN against the
`HAVING COUNT(*) >= 3` CTE eliminates it), otherwise the stage-1 field set.
The `latest_metrics` and ownership joins are LEFT JOINs, hence the `bind`s. -/
def screenRow (pw : ℚ → ℚ → ℚ) (fund : List FundRow) (own : List OwnershipRow)
    (s : StockRow) : Option ScreenEntry :=
  if 3 ≤ (histRows fund s.symbol).length then
    some { symbol := s.symbol
           name := s.data.name
           sector := s.data.sector
           market_cap := s.data.market_cap
           roic := sqlAvg ((histRows fund s.symbol).map (fun r => r.data.roic))
           roe := sqlAvg ((histRows fund s.symbol).map (fun r => r.data.roe))
           profit_margin :=
             sqlAvg ((histRows fund s.symbol).map (fun r => r.data.profit_margin))
           revenue_cagr :=
             revenueCagr pw ((histRows fund s.symbol).map (fun r => r.data.revenue))
           debt_to_equity := (latestFundRow fund s.symbol).bind
             (fun r => r.data.debt_to_equity)
           free_cash_flow := (latestFundRow fund s.symbol).bind
             (fun r => r.data.free_cash_flow)
           operating_cash_flow := (latestFundRow fund s.symbol).bind
             (fun r => r.data.operating_cash_flow)
           insider_ownership_pct := (latestOwnRow own s.symbol).bind
             (fun r => r.insider_ownership_pct)
           institutional_ownership_pct := (latestOwnRow own s.symbol).bind
             (fun r => r.institutional_ownership_pct) }
  else none

/-- SQL `value >= threshold` under three-valued logic: an absent threshold
applies no filter; a `NULL` value fails the comparison. -/
def filterGE (threshold value : Option ℚ) : Bool :=
  match threshold with
  | none => true
  | some m => match value with
    | some v => decide (m ≤ v)
    | none => false

/-- SQL `value <= threshold`: absent threshold applies no filter; a `NULL`
value fails. -/
def filterLE (threshold value : Option ℚ) : Bool :=
  match threshold with
  | none => true
  | some m => match value with
    | some v => decide (v ≤ m)
    | none => false

/-- The debt-to-equity clause `(l.debt_to_equity <= ? OR l.debt_to_equity IS
NULL)`: a `NULL` value passes. -/
def filterLEorNull (threshold value : Option ℚ) : Bool :=
  match threshold with
  | none => true
  | some m => match value with
    | some v => decide (v ≤ m)
    | none => true

/-- The `s.sector IN (...)` clause, applied only when the caller supplied a
non-empty sector list; a `NULL` sector fails the IN test. -/
def filterSector (sectors : List String) (sector : Option String) : Bool :=
  match sectors with
  | [] => true
  | _ :: _ => match sector with
    | some s => sectors.contains s
    | none => false

/-- The conjunction of all WHERE clauses `screen_database_initial` appends
for the supplied filters. -/
def passesFilters (p : ScreenFilters) (e : ScreenEntry) : Bool :=
  filterGE p.min_roic e.roic &&
  filterGE p.min_roe e.roe &&
  filterGE p.min_profit_margin e.profit_margin &&
  filterLEorNull p.max_debt_to_equity e.debt_to_equity &&
  filterGE p.min_market_cap e.market_cap &&
  filterLE p.max_market_cap e.market_cap &&
  filterSector p.sectors e.sector &&
  filterGE p.min_revenue_growth e.revenue_cagr

/-- `ORDER BY h.avg_roic_5yr DESC, h.avg_roe_5yr DESC` as a ranking (SQLite
sorts `NULL` last under DESC). -/
def screenRank (a b : ScreenEntry) : Bool :=
  match a.roic, b.roic with
  | some x, some y =>
    if x = y then
      match a.roe, b.roe with
      | some u, some w => decide (w ≤ u)
      | some _, none => true
      | none, some _ => false
      | none, none => true
    else decide (y < x)
  | some _, none => true
  | none, some _ => false
  | none, none =>
    match a.roe, b.roe with
    | some u, some w => decide (w ≤ u)
    | some _, none => true
    | none, some _ => false
    | none, none => true

/-- `screen_database_initial` from `tools.py` (stage 1): the aggregate query
over the modelled store, filters applied conjunctively, ordered by average
ROIC then ROE descending, capped at `limit`.  (`SELECT DISTINCT` is a no-op
here: `symbol` is the stocks primary key and every join is at most
one-to-one.) -/
def screen_database_initial (pw : ℚ → ℚ → ℚ) (stocks : List StockRow)
    (fund : List FundRow) (own : List OwnershipRow) (p : ScreenFilters) :
    List ScreenEntry :=
  (sortRanked screenRank
    ((stocks.filterMap (screenRow pw fund own)).filter (passesFilters p))).take p.limit

/-! ## Concrete example data for witnesses and counterexamples -/

/-- A `FundData` record with every column `NULL`. -/
def fundDataNone : FundData :=
  ⟨none, none, none, none, none, none, none, none, none, none, none, none, none,
   none, none, none, none, none⟩

/-- A `StockData` record with every column `NULL`. -/
def stockDataNone : StockData :=
  ⟨none, none, none, none, none, none, none, none, none, none, none, none, none,
   none, none, none, none, none⟩

/-- Fundamentals with revenue 5, other columns `NULL`. -/
def fundDataRev5 : FundData := { fundDataNone with revenue := some 5 }

/-- Fundamentals with revenue 9, other columns `NULL`. -/
def fundDataRev9 : FundData := { fundDataNone with revenue := some 9 }

/-- Rational stand-in for `np.log10`, used to instantiate witnesses and
counterexamples on concrete inputs: it agrees with the real base-10 logarithm
at the points those concrete computations evaluate it (`log10 1 = 0`,
`log10 2 ≈ 0.301 > 0`).  The theorems about `find_similar_companies` are
stated for every `lg` satisfying only properties the real `log10` has. -/
def log10Stub (q : ℚ) : ℚ := if q = 2 then 3/10 else 0

/-- Rational stand-in for SQL `POWER`, used to instantiate witnesses on
concrete inputs: like the real power function it returns a value above 1 on
a base above 1 (for the positive exponents used here) and exactly 1 on base
1.  The screener theorems are stated for every `pw` satisfying only
properties the real function has. -/
def powStub (x : ℚ) (_y : ℚ) : ℚ := if 1 < x then 2 else 1

/-- Reference bundle for the C10 witness: profit margin 1/2. -/
def refC10 : FundBundle :=
  ⟨some "R Co", some "Technology", some "Chips", some 100, some (1/2), none, none⟩

/-- Candidate bundle for the C10 witness: profit margin −1/2, the exact
negative of the reference's. -/
def candC10 : Candidate :=
  ⟨"CND", some ⟨some "C Co", some "Technology", some "Chips", some 100,
    some (-(1/2)), none, none⟩⟩

/-- Reference bundle for the C1 counterexample. -/
def refBundleA : FundBundle :=
  ⟨some "Ref Co", some "Technology", some "Semiconductors", some 100,
   some (1/5), some (1/10), some (3/10)⟩

/-- A candidate identical to the reference in sector, industry, market cap
and all three metrics. -/
def candA : Candidate :=
  ⟨"CAND", some ⟨some "Cand Co", some "Technology", some "Semiconductors",
    some 100, some (1/5), some (1/10), some (3/10)⟩⟩

/-- Reference bundle for the similarity witnesses. -/
def refW : FundBundle :=
  ⟨some "RW Co", some "Utilities", some "Electric", some 100, none, none, none⟩

/-- Candidate for the similarity witnesses: same sector, different industry,
half the market cap, no metrics. -/
def candW : Candidate :=
  ⟨"CW", some ⟨some "CW Co", some "Utilities", some "Gas", some 50,
    none, none, none⟩⟩

/-- The entry the similarity witnesses' scenario produces:
0 industry + 20 cap + 0 + 0 + 0 + 50 sector = 70. -/
def entryW : SimilarEntry :=
  ⟨"CW", some "CW Co", 70, 50, some "Utilities", some "Gas"⟩

/-- Reference bundle whose stored sector is SQL `NULL` (a cache hit on a row
whose sector column is `NULL`). -/
def refNullSector : FundBundle :=
  ⟨some "NR Co", none, none, some 100, none, none, none⟩

/-- Reference bundle carrying the `"N/A"` sector placeholder. -/
def refNA : FundBundle :=
  ⟨some "NA Co", some "N/A", none, some 5, none, none, none⟩

/-- Stock master row for the screener scenarios. -/
def stockDataTech : StockData :=
  { stockDataNone with name := some "AAA Inc", sector := some "Technology",
                       market_cap := some 1000 }

/-- The `stocks` row for symbol "AAA". -/
def stockAAA : StockRow := ⟨"AAA", stockDataTech, 0⟩

/-- Fundamentals with only a ROIC value. -/
def fdRoic (v : ℚ) : FundData := { fundDataNone with roic := some v }

/-- Three years (2020–2022) of "AAA" fundamentals with ROIC 1/10 each and a
`NULL` debt-to-equity. -/
def fundC4 : List FundRow :=
  [⟨"AAA", 2020, fdRoic (1/10)⟩, ⟨"AAA", 2021, fdRoic (1/10)⟩,
   ⟨"AAA", 2022, fdRoic (1/10)⟩]

/-- Filter set with no filters (all `None`) and limit 50. -/
def noFilters : ScreenFilters := ⟨none, none, none, none, none, none, none, [], 50⟩

/-- Filter set supplying only a maximum debt-to-equity of 1/2. -/
def pC4 : ScreenFilters := { noFilters with max_debt_to_equity := some (1/2) }

/-- Filter set supplying only a minimum ROIC of 1/20. -/
def pW4 : ScreenFilters := { noFilters with min_roic := some (1/20) }

/-- The stage-1 entry the `fundC4` scenario produces for "AAA". -/
def entryAAA : ScreenEntry :=
  ⟨"AAA", some "AAA Inc", some "Technology", some 1000, some (1/10), none, none,
   none, none, none, none, none, none⟩

/-- Six years (2020–2025) of "AAA" fundamentals: ROIC 0 in 2020 and 1 in
2021–2025. -/
def fundC5 : List FundRow :=
  [⟨"AAA", 2020, fdRoic 0⟩, ⟨"AAA", 2021, fdRoic 1⟩, ⟨"AAA", 2022, fdRoic 1⟩,
   ⟨"AAA", 2023, fdRoic 1⟩, ⟨"AAA", 2024, fdRoic 1⟩, ⟨"AAA", 2025, fdRoic 1⟩]

/-- The stage-1 entry the `fundC5` scenario produces for "AAA": the ROIC
column averages all six years ≥ 2020, giving 5/6. -/
def entryAAA5 : ScreenEntry :=
  ⟨"AAA", some "AAA Inc", some "Technology", some 1000, some (5/6), none, none,
   none, none, none, none, none, none⟩

/-- The claim's reading of the stage-1 averages, defined from the spec's
words: the mean ROIC over the **five most recent** fiscal years stored for
the symbol (a true 5-year trailing window), to be compared with the fixed
`fiscal_year >= 2020` cutoff the query actually uses. -/
def trailingFiveYearAvgRoic (fund : List FundRow) (sym : String) : Option ℚ :=
  sqlAvg (((sortRanked (fun a b => b.fiscal_year ≤ a.fiscal_year)
    (fund.filter (fun r => r.symbol = sym))).take 5).map (fun r => r.data.roic))

/-! ## Theorems -/

theorem foldl_min_le_init (l : List ℚ) (v : ℚ) : l.foldl min v ≤ v := by
  induction l generalizing v with
  | nil => exact le_refl v
  | cons b bs ih => exact le_trans (ih (min v b)) (min_le_left v b)

theorem foldl_min_le_of_mem (l : List ℚ) (x : ℚ) : x ∈ l → ∀ v, l.foldl min v ≤ x := by
  induction l with
  | nil => intro h; cases h
  | cons b bs ih =>
    intro h v
    rcases List.mem_cons.mp h with rfl | hx
    · exact le_trans (foldl_min_le_init bs (min v x)) (min_le_right v x)
    · exact ih hx (min v b)

theorem foldl_min_mem (l : List ℚ) (v : ℚ) :
    l.foldl min v = v ∨ l.foldl min v ∈ l := by
  induction l generalizing v with
  | nil => exact Or.inl rfl
  | cons b bs ih =>
    rcases ih (min v b) with h | h
    · rcases min_choice v b with hv | hb
      · exact Or.inl (by rw [List.foldl_cons, h, hv])
      · exact Or.inr (by rw [List.foldl_cons, h, hb]; exact List.mem_cons_self b bs)
    · exact Or.inr (List.mem_cons_of_mem b h)

theorem init_le_foldl_max (l : List ℚ) (v : ℚ) : v ≤ l.foldl max v := by
  induction l generalizing v with
  | nil => exact le_refl v
  | cons b bs ih => exact le_trans (le_max_left v b) (ih (max v b))

theorem le_foldl_max_of_mem (l : List ℚ) (x : ℚ) : x ∈ l → ∀ v, x ≤ l.foldl max v := by
  induction l with
  | nil => intro h; cases h
  | cons b bs ih =>
    intro h v
    rcases List.mem_cons.mp h with rfl | hx
    · exact le_trans (le_max_right v x) (init_le_foldl_max bs (max v x))
    · exact ih hx (max v b)

theorem foldl_max_mem (l : List ℚ) (v : ℚ) :
    l.foldl max v = v ∨ l.foldl max v ∈ l := by
  induction l generalizing v with
  | nil => exact Or.inl rfl
  | cons b bs ih =>
    rcases ih (max v b) with h | h
    · rcases max_choice v b with hv | hb
      · exact Or.inl (by rw [List.foldl_cons, h, hv])
      · exact Or.inr (by rw [List.foldl_cons, h, hb]; exact List.mem_cons_self b bs)
    · exact Or.inr (List.mem_cons_of_mem b h)

theorem insertRanked_perm {α : Type} (r : α → α → Bool) (a : α) (l : List α) :
    (insertRanked r a l).Perm (a :: l) := by
  induction l with
  | nil => exact List.Perm.refl [a]
  | cons b bs ih =>
    by_cases h : r a b
    · simp [insertRanked, h]
    · simp only [insertRanked, h, if_neg, Bool.false_eq_true, not_false_iff]
      exact ((ih.cons b).trans (List.Perm.swap a b bs))

theorem sortRanked_perm {α : Type} (r : α → α → Bool) (l : List α) :
    (sortRanked r l).Perm l := by
  induction l with
  | nil => exact List.Perm.refl []
  | cons a as ih =>
    exact (insertRanked_perm r a (sortRanked r as)).trans (ih.cons a)

theorem mem_of_mem_sortRanked {α : Type} {r : α → α → Bool} {l : List α} {a : α}
    (h : a ∈ sortRanked r l) : a ∈ l :=
  (sortRanked_perm r l).mem_iff.mp h

theorem floor_le_roundHalfEven (q : ℚ) : ⌊q⌋ ≤ roundHalfEven q := by
  unfold roundHalfEven
  split
  · exact le_refl _
  · split
    · exact le_of_lt (lt_add_one _)
    · split
      · exact le_refl _
      · exact le_of_lt (lt_add_one _)

theorem roundHalfEven_le_ceil (q : ℚ) : roundHalfEven q ≤ ⌈q⌉ := by
  unfold roundHalfEven
  have hfc : ⌊q⌋ ≤ ⌈q⌉ := Int.floor_le_ceil q
  split
  · exact hfc
  · next hlt =>
    have hq : (⌊q⌋ : ℚ) < q := by
      have : (0:ℚ) < q - ⌊q⌋ := lt_of_lt_of_le (by norm_num) (not_lt.mp hlt)
      linarith
    have : ⌊q⌋ < ⌈q⌉ := Int.lt_ceil.mpr hq
    split
    · omega
    · split
      · exact hfc
      · omega

theorem pythonRound2_nonneg {q : ℚ} (h : 0 ≤ q) : 0 ≤ pythonRound2 q := by
  unfold pythonRound2
  have h1 : (0:ℤ) ≤ ⌊100 * q⌋ := Int.floor_nonneg.mpr (by positivity)
  have h2 : (0:ℤ) ≤ roundHalfEven (100 * q) := le_trans h1 (floor_le_roundHalfEven _)
  have h3 : (0:ℚ) ≤ (roundHalfEven (100 * q) : ℚ) := by exact_mod_cast h2
  positivity

theorem pythonRound2_le_intCast {q : ℚ} {m : ℤ} (h : q ≤ (m : ℚ)) :
    pythonRound2 q ≤ (m : ℚ) := by
  unfold pythonRound2
  have h1 : (100 : ℚ) * q ≤ ((100 * m : ℤ) : ℚ) := by push_cast; linarith
  have h2 : roundHalfEven (100 * q) ≤ 100 * m := by
    refine le_trans (roundHalfEven_le_ceil _) ?_
    calc ⌈100 * q⌉ ≤ ⌈((100 * m : ℤ) : ℚ)⌉ := Int.ceil_le_ceil h1
      _ = 100 * m := Int.ceil_intCast _
  have h3 : ((roundHalfEven (100 * q) : ℤ) : ℚ) ≤ ((100 * m : ℤ) : ℚ) := by
    exact_mod_cast h2
  rw [div_le_iff₀ (by norm_num : (0:ℚ) < 100)]
  push_cast at h3 ⊢
  linarith

theorem pythonRound2_intCast (n : ℤ) : pythonRound2 ((n : ℤ) : ℚ) = (n : ℚ) := by
  unfold pythonRound2 roundHalfEven
  have hcast : (100 : ℚ) * (n : ℚ) = ((100 * n : ℤ) : ℚ) := by push_cast; ring
  rw [hcast, Int.floor_intCast]
  have hc : ((100 * n : ℤ) : ℚ) - ((100 * n : ℤ) : ℚ) < 1/2 := by norm_num
  rw [if_pos hc]
  push_cast
  field_simp

theorem find_similar_ok_inv {lg : ℚ → ℚ} {symbol : String} {ref : FundBundle}
    {pool : List Candidate} {limit : ℕ} {entries : List SimilarEntry} {tc tm : ℕ}
    (hok : find_similar_companies lg symbol (some ref) pool limit =
      .ok entries tc tm) :
    ∃ rmc, ref.market_cap = some rmc ∧ ¬(ref.sector = some "N/A" ∨ rmc = 0) ∧
      ∀ e ∈ entries, ∃ c, processCandidate lg ref rmc c = some e := by
  have hok' : find_similar_given_ref lg symbol ref pool limit = .ok entries tc tm := hok
  unfold find_similar_given_ref at hok'
  split at hok'
  · cases hok'
  · next rmc hmc =>
    split at hok'
    · cases hok'
    · next hguard =>
      split at hok'
      · cases hok'
      · refine ⟨rmc, hmc, hguard, ?_⟩
        intro e he
        cases hok'
        have hmem := mem_of_mem_sortRanked (List.mem_of_mem_take he)
        rcases List.mem_filterMap.mp hmem with ⟨c, _, hc⟩
        exact ⟨c, hc⟩

theorem calc_metric_similarity_bounds {a b : Option ℚ} {pts v : ℚ}
    (hpts : 0 ≤ pts) (h : calc_metric_similarity a b pts = some v) :
    0 ≤ v ∧ v ≤ pts := by
  unfold calc_metric_similarity at h
  split at h
  · next a b =>
    split at h
    · cases h; exact ⟨le_refl 0, hpts⟩
    · split at h
      · cases h
      · cases h
        refine ⟨le_max_left 0 _, max_le hpts ?_⟩
        have habs : (0:ℚ) ≤ |(a - b) / ((a + b) / 2)| := abs_nonneg _
        nlinarith
  · cases h; exact ⟨le_refl 0, hpts⟩

theorem processCandidate_some_inv {lg : ℚ → ℚ} {ref : FundBundle} {rmc : ℚ}
    {c : Candidate} {e : SimilarEntry} (hlg : 0 < lg 2)
    (h : processCandidate lg ref rmc c = some e) :
    e.sector = ref.sector ∧ 1/10 ≤ e.market_cap / rmc ∧ e.market_cap / rmc ≤ 2 ∧
      0 ≤ e.similarity_score ∧ e.similarity_score ≤ 120 := by
  unfold processCandidate at h
  split at h
  · cases h
  · next f hf =>
    split at h
    · cases h
    · next cmc hcmc =>
      split at h
      · cases h
      · next hcz =>
        split at h
        · cases h
        · next hratio =>
          split at h
          · cases h
          · next hsector =>
            rcases hm : calc_metric_similarity ref.profit_margin f.profit_margin 15 with
              _ | marginSim <;> rw [hm] at h
            · cases h
            rcases hg : calc_metric_similarity ref.revenue_growth f.revenue_growth 10 with
              _ | growthSim <;> rw [hg] at h
            · cases h
            rcases hr : calc_metric_similarity ref.roe f.roe 5 with _ | roeSim <;>
              rw [hr] at h
            · cases h
            have hmB := calc_metric_similarity_bounds (by norm_num : (0:ℚ) ≤ 15) hm
            have hgB := calc_metric_similarity_bounds (by norm_num : (0:ℚ) ≤ 10) hg
            have hrB := calc_metric_similarity_bounds (by norm_num : (0:ℚ) ≤ 5) hr
            cases h
            push_neg at hratio
            have hsec : f.sector = ref.sector := not_not.mp hsector
            refine ⟨hsec, hratio.1, hratio.2, ?_, ?_⟩
            · refine pythonRound2_nonneg ?_
              have hind : (0:ℚ) ≤ if f.industry = ref.industry then (20:ℚ) else 0 := by
                split <;> norm_num
              have hmc0 : (0:ℚ) ≤ max 0 (20 * (1 - |lg (cmc / rmc)| / lg 2)) :=
                le_max_left 0 _
              linarith [hmB.1, hgB.1, hrB.1]
            · have hle : ((if f.industry = ref.industry then (20:ℚ) else 0)
                  + max 0 (20 * (1 - |lg (cmc / rmc)| / lg 2))
                  + marginSim + growthSim + roeSim + 50) ≤ ((120 : ℤ) : ℚ) := by
                have hind : (if f.industry = ref.industry then (20:ℚ) else 0) ≤ 20 := by
                  split <;> norm_num
                have hdiv : 0 ≤ |lg (cmc / rmc)| / lg 2 :=
                  div_nonneg (abs_nonneg _) (le_of_lt hlg)
                have hmc : max 0 (20 * (1 - |lg (cmc / rmc)| / lg 2)) ≤ 20 := by
                  refine max_le (by norm_num) ?_
                  nlinarith
                push_cast
                linarith [hmB.2, hgB.2, hrB.2]
              have := pythonRound2_le_intCast hle
              push_cast at this
              exact this

theorem processCandidate_gates_inv {lg : ℚ → ℚ} {ref : FundBundle} {rmc : ℚ}
    {c : Candidate} {e : SimilarEntry}
    (h : processCandidate lg ref rmc c = some e) :
    e.sector = ref.sector ∧ 1/10 ≤ e.market_cap / rmc ∧ e.market_cap / rmc ≤ 2 := by
  unfold processCandidate at h
  split at h
  · cases h
  · next f hf =>
    split at h
    · cases h
    · next cmc hcmc =>
      split at h
      · cases h
      · next hcz =>
        split at h
        · cases h
        · next hratio =>
          split at h
          · cases h
          · next hsector =>
            rcases hm : calc_metric_similarity ref.profit_margin f.profit_margin 15 with
              _ | marginSim <;> rw [hm] at h
            · cases h
            rcases hg : calc_metric_similarity ref.revenue_growth f.revenue_growth 10 with
              _ | growthSim <;> rw [hg] at h
            · cases h
            rcases hr : calc_metric_similarity ref.roe f.roe 5 with _ | roeSim <;>
              rw [hr] at h
            · cases h
            cases h
            push_neg at hratio
            exact ⟨not_not.mp hsector, hratio.1, hratio.2⟩

/-- The mean of a nonzero value and its exact negative is zero, so the
percentage-difference division raises (`none`). -/
theorem calc_metric_similarity_neg {a : ℚ} (ha : a ≠ 0) (pts : ℚ) :
    calc_metric_similarity (some a) (some (-a)) pts = none := by
  simp only [calc_metric_similarity]
  rw [if_neg, if_pos]
  · norm_num
  · push_neg
    exact ⟨ha, neg_ne_zero.mpr ha⟩

/-- If any of the three metric-similarity computations raises, the candidate
contributes no entry (the per-candidate `except` handler `continue`s). -/
theorem processCandidate_none_of_raise {lg : ℚ → ℚ} {ref : FundBundle} {rmc : ℚ}
    {c : Candidate} {f : FundBundle} (hf : c.fetch = some f)
    (hraise : calc_metric_similarity ref.profit_margin f.profit_margin 15 = none ∨
      calc_metric_similarity ref.revenue_growth f.revenue_growth 10 = none ∨
      calc_metric_similarity ref.roe f.roe 5 = none) :
    processCandidate lg ref rmc c = none := by
  simp only [processCandidate, hf]
  rcases hmc : f.market_cap with _ | cmc <;> simp only [hmc]
  by_cases hcz : cmc = 0
  · rw [if_pos hcz]
  rw [if_neg hcz]
  by_cases hratio : cmc / rmc < 1/10 ∨ 2 < cmc / rmc
  · rw [if_pos hratio]
  rw [if_neg hratio]
  by_cases hsector : f.sector ≠ ref.sector
  · rw [if_pos hsector]
  rw [if_neg hsector]
  rcases hA : calc_metric_similarity ref.profit_margin f.profit_margin 15 with _ | m <;>
    rcases hB : calc_metric_similarity ref.revenue_growth f.revenue_growth 10 with _ | g <;>
      rcases hC : calc_metric_similarity ref.roe f.roe 5 with _ | r <;>
        simp only [hA, hB, hC]
  exfalso
  rcases hraise with hx | hx | hx
  · rw [hA] at hx; cases hx
  · rw [hB] at hx; cases hx
  · rw [hC] at hx; cases hx

theorem screen_mem_inv {pw : ℚ → ℚ → ℚ} {stocks : List StockRow}
    {fund : List FundRow} {own : List OwnershipRow} {p : ScreenFilters}
    {e : ScreenEntry} (h : e ∈ screen_database_initial pw stocks fund own p) :
    passesFilters p e = true ∧ ∃ s ∈ stocks, screenRow pw fund own s = some e := by
  unfold screen_database_initial at h
  have h1 := mem_of_mem_sortRanked (List.mem_of_mem_take h)
  have h2 := List.of_mem_filter h1
  have h3 := List.mem_of_mem_filter h1
  exact ⟨h2, List.mem_filterMap.mp h3⟩

theorem screenRow_some_inv {pw : ℚ → ℚ → ℚ} {fund : List FundRow}
    {own : List OwnershipRow} {s : StockRow} {e : ScreenEntry}
    (h : screenRow pw fund own s = some e) :
    3 ≤ (histRows fund e.symbol).length ∧
    e.symbol = s.symbol ∧
    e.sector = s.data.sector ∧
    e.market_cap = s.data.market_cap ∧
    e.roic = sqlAvg ((histRows fund e.symbol).map (fun r => r.data.roic)) ∧
    e.roe = sqlAvg ((histRows fund e.symbol).map (fun r => r.data.roe)) ∧
    e.profit_margin =
      sqlAvg ((histRows fund e.symbol).map (fun r => r.data.profit_margin)) ∧
    e.revenue_cagr =
      revenueCagr pw ((histRows fund e.symbol).map (fun r => r.data.revenue)) ∧
    e.debt_to_equity =
      (latestFundRow fund e.symbol).bind (fun r => r.data.debt_to_equity) := by
  unfold screenRow at h
  split at h
  · next hyears =>
    cases h
    exact ⟨hyears, rfl, rfl, rfl, rfl, rfl, rfl, rfl, rfl⟩
  · cases h

/-! ## Claim theorems -/

/-- C2 (amended): `calculate_roic` returns absent when any of the three
inputs is missing *or zero* (Python truthiness treats a present zero like an
absent value), or when invested capital `total_assets − current_liabilities`
is non-positive; in all remaining cases it returns
`operating_income × (1 − tax_rate) / (total_assets − current_liabilities)`.
In particular the non-positive invested-capital case yields absent, never
zero, and the function is total (never an error). -/
theorem C2_roic_guard (oi ta cl tax : ℚ) :
    calculate_roic (some oi) (some ta) (some cl) tax =
      (if oi = 0 ∨ ta = 0 ∨ cl = 0 ∨ ta - cl ≤ 0 then none
       else some (oi * (1 - tax) / (ta - cl))) ∧
    calculate_roic none (some ta) (some cl) tax = none ∧
    calculate_roic (some oi) none (some cl) tax = none ∧
    calculate_roic (some oi) (some ta) none tax = none := by
  refine ⟨?_, rfl, rfl, rfl⟩
  simp only [calculate_roic]
  by_cases h1 : oi = 0 ∨ ta = 0 ∨ cl = 0
  · rw [if_pos h1, if_pos (by tauto)]
  · rw [if_neg h1]
    by_cases h2 : ta - cl ≤ 0
    · rw [if_pos h2, if_pos (by tauto)]
    · rw [if_neg h2, if_neg (by tauto)]

/-- C2 counterexample: with operating income 100, total assets 200 and
current liabilities 0 — all three inputs present ("available") and invested
capital 200 > 0 — the code returns absent, not the claimed formula value
`100 × (1 − 0.21) / (200 − 0)`: Python's `not current_liabilities` treats the
zero as missing. -/
theorem C2_counterexample :
    calculate_roic (some 100) (some 200) (some 0) (21/100) = none ∧
    (0:ℚ) < 200 - 0 ∧
    (none : Option ℚ) ≠ some (100 * (1 - 21/100) / (200 - 0)) := by
  refine ⟨?_, by norm_num, by simp⟩
  simp [calculate_roic]

/-- C7: writing the same `(symbol, fiscal_year)` annual-fundamentals record
twice leaves exactly one row for that key, with the second write's values
winning; and a write always preserves the table invariant that no two rows
share a `(symbol, period)` key. -/
theorem C7_idempotent_upsert (t : List FundRow) (sym : String) (y : ℤ)
    (d1 d2 : FundData) :
    ((write_fundamentals_annual (write_fundamentals_annual t sym y d1) sym y d2).filter
      (fun r => r.symbol = sym ∧ r.fiscal_year = y)) = [⟨sym, y, d2⟩] ∧
    (FundKeyUnique t → FundKeyUnique (write_fundamentals_annual t sym y d2)) := by
  constructor
  · simp only [write_fundamentals_annual]
    rw [List.filter_cons]
    have hK : decide ((⟨sym, y, d2⟩ : FundRow).symbol = sym ∧
        (⟨sym, y, d2⟩ : FundRow).fiscal_year = y) = true := by simp
    rw [hK, if_pos rfl]
    have hnil : (((⟨sym, y, d1⟩ : FundRow) ::
        t.filter (fun r => ¬(r.symbol = sym ∧ r.fiscal_year = y))).filter
          (fun r => ¬(r.symbol = sym ∧ r.fiscal_year = y))).filter
            (fun r => r.symbol = sym ∧ r.fiscal_year = y) = [] := by
      refine List.filter_eq_nil_iff.mpr ?_
      intro a ha hKa
      have hP := (List.mem_filter.mp ha).2
      rw [decide_eq_true_eq] at hP
      rw [decide_eq_true_eq] at hKa
      exact hP hKa
    rw [hnil]
  · intro hu
    unfold FundKeyUnique write_fundamentals_annual
    refine List.Pairwise.cons ?_ ?_
    · intro b hb
      have hP := (List.mem_filter.mp hb).2
      rw [decide_eq_true_eq] at hP
      intro hcon
      exact hP ⟨hcon.1.symm, hcon.2.symm⟩
    · exact List.Pairwise.filter _ hu

/-- C7 witness: concrete double write into an empty table. -/
theorem C7_witness :
    ((write_fundamentals_annual (write_fundamentals_annual [] "ACME" 2024 fundDataRev5)
        "ACME" 2024 fundDataRev9).filter
      (fun r => r.symbol = "ACME" ∧ r.fiscal_year = 2024)) = [⟨"ACME", 2024, fundDataRev9⟩] ∧
    FundKeyUnique (write_fundamentals_annual [] "ACME" 2024 fundDataRev9) :=
  ⟨(C7_idempotent_upsert [] "ACME" 2024 fundDataRev5 fundDataRev9).1,
   (C7_idempotent_upsert [] "ACME" 2024 fundDataRev5 fundDataRev9).2 List.Pairwise.nil⟩

theorem foldl_pickLatest_of_le (rest : List FundRow) (a : FundRow)
    (h : ∀ r ∈ rest, r.fiscal_year ≤ a.fiscal_year) :
    rest.foldl (fun x b => if x.fiscal_year < b.fiscal_year then b else x) a = a := by
  induction rest with
  | nil => rfl
  | cons b bs ih =>
    have hb : b.fiscal_year ≤ a.fiscal_year := h b (List.mem_cons_self b bs)
    have hpick : (if a.fiscal_year < b.fiscal_year then b else a) = a := by
      rw [if_neg (not_lt.mpr hb)]
    rw [List.foldl_cons, hpick]
    exact ih (fun r hr => h r (List.mem_cons_of_mem b hr))

theorem foldl_pickLatest_year_ge (rest : List FundRow) (a : FundRow) :
    a.fiscal_year ≤
      (rest.foldl (fun x b => if x.fiscal_year < b.fiscal_year then b else x)
        a).fiscal_year ∧
    ∀ r ∈ rest, r.fiscal_year ≤
      (rest.foldl (fun x b => if x.fiscal_year < b.fiscal_year then b else x)
        a).fiscal_year := by
  induction rest generalizing a with
  | nil => exact ⟨le_refl _, fun r hr => absurd hr (List.not_mem_nil r)⟩
  | cons b bs ih =>
    have hpick : a.fiscal_year ≤
        (if a.fiscal_year < b.fiscal_year then b else a).fiscal_year ∧
        b.fiscal_year ≤
        (if a.fiscal_year < b.fiscal_year then b else a).fiscal_year := by
      by_cases h : a.fiscal_year < b.fiscal_year
      · rw [if_pos h]; exact ⟨le_of_lt h, le_refl _⟩
      · rw [if_neg h]; exact ⟨le_refl _, not_lt.mp h⟩
    have ihb := ih (if a.fiscal_year < b.fiscal_year then b else a)
    rw [List.foldl_cons]
    refine ⟨le_trans hpick.1 ihb.1, ?_⟩
    intro r hr
    rcases List.mem_cons.mp hr with rfl | hrbs
    · exact le_trans hpick.2 ihb.1
    · exact ihb.2 r hrbs

/-- C8 (amended): read-after-write.  For the snapshot-keyed `stocks` table,
`get_stock_info` immediately after `write_stock_info` returns exactly the
written record (all persisted fields), in any prior store state.  For the
period-keyed `fundamentals_annual` table the paired read is latest-period, so
it returns the written record **exactly when** the written fiscal year is at
least every fiscal year already stored for that symbol — with any newer
stored year, the read returns that newer row and never the written record. -/
theorem C8_read_after_write (ts : List StockRow) (sym : String) (d : StockData)
    (now : ℤ) (tf : List FundRow) (y : ℤ) (fd : FundData) :
    get_stock_info (write_stock_info ts sym d now) sym = some ⟨sym, d, now⟩ ∧
    (get_latest_fundamentals_annual (write_fundamentals_annual tf sym y fd) sym =
        some ⟨sym, y, fd⟩ ↔
      (∀ r ∈ tf, r.symbol = sym → r.fiscal_year ≤ y)) := by
  have hhead : ((⟨sym, y, fd⟩ : FundRow) ::
      tf.filter (fun r => ¬(r.symbol = sym ∧ r.fiscal_year = y))).filter
        (fun r => r.symbol = sym) =
      (⟨sym, y, fd⟩ : FundRow) ::
        (tf.filter (fun r => ¬(r.symbol = sym ∧ r.fiscal_year = y))).filter
          (fun r => r.symbol = sym) := by
    rw [List.filter_cons]
    have hs : decide ((⟨sym, y, fd⟩ : FundRow).symbol = sym) = true := by simp
    rw [hs, if_pos rfl]
  constructor
  · simp [get_stock_info, write_stock_info, List.find?]
  · constructor
    · intro hread r hr hsym
      by_contra hy
      push_neg at hy
      have hPr : (decide ¬(r.symbol = sym ∧ r.fiscal_year = y)) = true := by
        rw [decide_eq_true_eq]
        intro hcon
        exact absurd hcon.2 (by omega)
      have hrP : r ∈ tf.filter (fun x => ¬(x.symbol = sym ∧ x.fiscal_year = y)) :=
        List.mem_filter.mpr ⟨hr, hPr⟩
      have hrS : r ∈ (tf.filter
          (fun x => ¬(x.symbol = sym ∧ x.fiscal_year = y))).filter
            (fun x => x.symbol = sym) :=
        List.mem_filter.mpr ⟨hrP, by rw [decide_eq_true_eq]; exact hsym⟩
      simp only [get_latest_fundamentals_annual, write_fundamentals_annual, hhead,
        pickLatestFund] at hread
      injection hread with heq
      have hge := (foldl_pickLatest_year_ge
        ((tf.filter (fun x => ¬(x.symbol = sym ∧ x.fiscal_year = y))).filter
          (fun x => x.symbol = sym)) ⟨sym, y, fd⟩).2 r hrS
      rw [heq] at hge
      have hle2 : r.fiscal_year ≤ y := hge
      omega
    · intro hle
      simp only [get_latest_fundamentals_annual, write_fundamentals_annual, hhead,
        pickLatestFund]
      rw [foldl_pickLatest_of_le]
      intro r hr
      have hmem := List.mem_of_mem_filter (List.mem_of_mem_filter hr)
      have hsym : r.symbol = sym := by
        have := (List.mem_filter.mp hr).2
        rwa [decide_eq_true_eq] at this
      exact hle r hmem hsym

/-- C8 counterexample: the fundamentals table already holds a 2024 row for
"ACME"; writing a 2020 row and immediately reading returns the 2024 row, not
the record just written — the latest-period read is not keyed by the written
period. -/
theorem C8_counterexample :
    get_latest_fundamentals_annual
      (write_fundamentals_annual [⟨"ACME", 2024, fundDataRev5⟩] "ACME" 2020 fundDataRev9)
      "ACME" = some ⟨"ACME", 2024, fundDataRev5⟩ ∧
    (⟨"ACME", 2024, fundDataRev5⟩ : FundRow) ≠ ⟨"ACME", 2020, fundDataRev9⟩ := by
  constructor
  · simp [get_latest_fundamentals_annual, write_fundamentals_annual, pickLatestFund,
      List.filter_cons]
  · intro h
    cases h

/-- C8 witness: concrete round-trips through empty tables. -/
theorem C8_witness :
    get_stock_info (write_stock_info [] "ACME" stockDataNone 1) "ACME" =
      some ⟨"ACME", stockDataNone, 1⟩ ∧
    get_latest_fundamentals_annual (write_fundamentals_annual [] "ACME" 2024 fundDataRev5)
      "ACME" = some ⟨"ACME", 2024, fundDataRev5⟩ :=
  ⟨(C8_read_after_write [] "ACME" stockDataNone 1 [] 2024 fundDataRev5).1,
   (C8_read_after_write [] "ACME" stockDataNone 1 [] 2024 fundDataRev5).2.mpr
     (by intro r hr; cases hr)⟩

/-- C10: a candidate whose profit margin, revenue growth, or ROE is the exact
nonzero negative of the reference's value is never scored: the mean
`(ref + cand)/2` in `calc_metric_similarity` is zero, the division raises
`ZeroDivisionError` (modelled as `none`), and the per-candidate exception
handler silently excludes the candidate from the results. -/
theorem C10_negated_metric_excludes (lg : ℚ → ℚ) (ref : FundBundle) (rmc : ℚ)
    (c : Candidate) (f : FundBundle) (hf : c.fetch = some f) (a : ℚ) (ha : a ≠ 0)
    (hneg : (ref.profit_margin = some a ∧ f.profit_margin = some (-a)) ∨
            (ref.revenue_growth = some a ∧ f.revenue_growth = some (-a)) ∨
            (ref.roe = some a ∧ f.roe = some (-a))) :
    processCandidate lg ref rmc c = none := by
  refine processCandidate_none_of_raise hf ?_
  rcases hneg with ⟨h1, h2⟩ | ⟨h1, h2⟩ | ⟨h1, h2⟩
  · exact Or.inl (by rw [h1, h2, calc_metric_similarity_neg ha])
  · exact Or.inr (Or.inl (by rw [h1, h2, calc_metric_similarity_neg ha]))
  · exact Or.inr (Or.inr (by rw [h1, h2, calc_metric_similarity_neg ha]))

/-- C10 witness: the concrete negated-margin candidate is excluded. -/
theorem C10_witness : processCandidate log10Stub refC10 100 candC10 = none :=
  C10_negated_metric_excludes log10Stub refC10 100 candC10 _ rfl (1/2)
    (by norm_num) (Or.inl ⟨rfl, rfl⟩)

theorem pythonRound2_onTwenty : pythonRound2 120 = 120 := by
  have h := pythonRound2_intCast 120
  norm_num at h
  exact h

theorem pythonRound2_onSeventy : pythonRound2 70 = 70 := by
  have h := pythonRound2_intCast 70
  norm_num at h
  exact h

/-- C1 (amended): every similarity score in a successful
`find_similar_companies` result lies in [0, **120**], not [0, 100]: the
weighted decomposition sector 50 + industry bonus 20 + market-cap closeness
up to 20 + margin up to 15 + growth up to 10 + ROE up to 5 sums to 120 when
all terms are maximal.  The only property assumed of the log parameter is
`log10 2 > 0`, which the real base-10 logarithm satisfies. -/
theorem C1_similarity_score_in_0_120 (lg : ℚ → ℚ) (hlg : 0 < lg 2)
    (symbol : String) (ref : FundBundle) (pool : List Candidate) (limit : ℕ)
    (entries : List SimilarEntry) (tc tm : ℕ)
    (hok : find_similar_companies lg symbol (some ref) pool limit =
      .ok entries tc tm)
    (e : SimilarEntry) (he : e ∈ entries) :
    0 ≤ e.similarity_score ∧ e.similarity_score ≤ 120 := by
  rcases find_similar_ok_inv hok with ⟨rmc, _, _, hall⟩
  rcases hall e he with ⟨c, hc⟩
  have h := processCandidate_some_inv hlg hc
  exact ⟨h.2.2.2.1, h.2.2.2.2⟩

/-- C1 counterexample: a same-industry candidate with identical market cap
and identical metrics scores 50 + 20 + 20 + 15 + 10 + 5 = 120 > 100, so the
claimed interval [0, 100] is violated. -/
theorem C1_counterexample :
    find_similar_companies log10Stub "REF" (some refBundleA) [candA] 10 =
      .ok [⟨"CAND", some "Cand Co", 120, 100, some "Technology",
            some "Semiconductors"⟩] 1 1 ∧
    ¬((120:ℚ) ≤ 100) := by
  constructor
  · have hpc : processCandidate log10Stub refBundleA 100 candA =
        some ⟨"CAND", some "Cand Co", 120, 100, some "Technology",
          some "Semiconductors"⟩ := by
      norm_num [processCandidate, calc_metric_similarity, candA, refBundleA,
        log10Stub, max_def, pythonRound2_onTwenty]
    have hne : pyUpper "CAND" ≠ pyUpper "REF" := by decide
    have hsec : ("Technology" : String) ≠ "N/A" := by decide
    have hsym : candA.symbol = "CAND" := rfl
    have hrmc : refBundleA.market_cap = some 100 := rfl
    have hrsec : refBundleA.sector = some "Technology" := rfl
    norm_num [find_similar_companies, find_similar_given_ref, filteredPool,
      scoredCandidates, List.filterMap_cons, hpc, hne, hsec, hsym, hrmc, hrsec,
      sortRanked, insertRanked]
  · norm_num

theorem find_similar_onW :
    find_similar_companies log10Stub "RW" (some refW) [candW] 10 =
      .ok [entryW] 1 1 := by
  have hind : ("Gas" : String) ≠ "Electric" := by decide
  have hpc : processCandidate log10Stub refW 100 candW = some entryW := by
    norm_num [processCandidate, calc_metric_similarity, candW, refW, entryW,
      log10Stub, max_def, hind, pythonRound2_onSeventy]
  have hne : pyUpper "CW" ≠ pyUpper "RW" := by decide
  have hsec : ("Utilities" : String) ≠ "N/A" := by decide
  have hsym : candW.symbol = "CW" := rfl
  have hrmc : refW.market_cap = some 100 := rfl
  have hrsec : refW.sector = some "Utilities" := rfl
  norm_num [find_similar_companies, find_similar_given_ref, filteredPool,
    scoredCandidates, List.filterMap_cons, hpc, hne, hsec, hsym, hrmc, hrsec,
    sortRanked, insertRanked]

/-- C1 witness: the concrete scenario's score is in [0, 120]. -/
theorem C1_witness : 0 ≤ entryW.similarity_score ∧ entryW.similarity_score ≤ 120 :=
  C1_similarity_score_in_0_120 log10Stub (by norm_num [log10Stub]) "RW" refW
    [candW] 10 [entryW] 1 1 find_similar_onW entryW (List.mem_singleton.mpr rfl)

/-- C3: every company in a successful `find_similar_companies` result has a
sector equal to the reference's (equality of the stored values, a NULL
matching NULL), and its market-cap ratio to the reference lies in
[0.1, 2.0]; candidates failing either condition are hard-rejected and never
appear. -/
theorem C3_sector_and_cap_band (lg : ℚ → ℚ) (symbol : String) (ref : FundBundle)
    (pool : List Candidate) (limit : ℕ) (entries : List SimilarEntry) (tc tm : ℕ)
    (hok : find_similar_companies lg symbol (some ref) pool limit =
      .ok entries tc tm)
    (e : SimilarEntry) (he : e ∈ entries) :
    e.sector = ref.sector ∧
    ∃ rmc, ref.market_cap = some rmc ∧ rmc ≠ 0 ∧
      1/10 ≤ e.market_cap / rmc ∧ e.market_cap / rmc ≤ 2 := by
  rcases find_similar_ok_inv hok with ⟨rmc, hmc, hguard, hall⟩
  rcases hall e he with ⟨c, hc⟩
  have h := processCandidate_gates_inv hc
  push_neg at hguard
  exact ⟨h.1, rmc, hmc, hguard.2, h.2.1, h.2.2⟩

/-- C3 witness: the concrete scenario's entry matches the reference sector
and sits in the market-cap band. -/
theorem C3_witness :
    entryW.sector = refW.sector ∧
    ∃ rmc, refW.market_cap = some rmc ∧ rmc ≠ 0 ∧
      1/10 ≤ entryW.market_cap / rmc ∧ entryW.market_cap / rmc ≤ 2 :=
  C3_sector_and_cap_band log10Stub "RW" refW [candW] 10 [entryW] 1 1
    find_similar_onW entryW (List.mem_singleton.mpr rfl)

theorem given_ref_none (lg : ℚ → ℚ) (symbol : String) (ref : FundBundle)
    (pool : List Candidate) (limit : ℕ) (hmc : ref.market_cap = none) :
    find_similar_given_ref lg symbol ref pool limit = .insufficientRefData := by
  unfold find_similar_given_ref
  rw [hmc]

theorem given_ref_some (lg : ℚ → ℚ) (symbol : String) (ref : FundBundle)
    (pool : List Candidate) (limit : ℕ) (rmc : ℚ)
    (hmc : ref.market_cap = some rmc) :
    find_similar_given_ref lg symbol ref pool limit =
      (if ref.sector = some "N/A" ∨ rmc = 0 then .insufficientRefData
       else if (filteredPool symbol pool).isEmpty then .noCandidates
       else .ok ((sortRanked (fun a b => b.similarity_score ≤ a.similarity_score)
                   (scoredCandidates lg symbol ref rmc pool)).take limit)
               (filteredPool symbol pool).length
               (scoredCandidates lg symbol ref rmc pool).length) := by
  unfold find_similar_given_ref
  rw [hmc]

/-- C9 (amended): error-result characterization of
`find_similar_companies`.  A failed reference fetch yields the fetch-error
result.  The typed insufficient-reference-data result is returned exactly
when the reference's sector is the string `"N/A"` (the cache-miss
placeholder) or its market cap is absent or zero — a cache-hit reference
whose stored sector is SQL `NULL` is *not* caught by this check.  Past that
guard, the explicit no-candidates result is returned exactly when the pool
(after excluding the reference) is empty; otherwise the call returns a
success result, which can itself carry an empty list — so the two error
results are distinguishable from a successful zero-match result. -/
theorem C9_error_results (lg : ℚ → ℚ) (symbol : String) (pool : List Candidate)
    (limit : ℕ) :
    (find_similar_companies lg symbol none pool limit = .fetchError) ∧
    (∀ ref : FundBundle,
      (find_similar_companies lg symbol (some ref) pool limit =
          .insufficientRefData ↔
        (ref.sector = some "N/A" ∨ ref.market_cap = none ∨
          ref.market_cap = some 0))) ∧
    (∀ ref : FundBundle, ∀ rmc : ℚ, ref.market_cap = some rmc →
      ref.sector ≠ some "N/A" → rmc ≠ 0 →
      ((find_similar_companies lg symbol (some ref) pool limit = .noCandidates ↔
          filteredPool symbol pool = []) ∧
       (filteredPool symbol pool ≠ [] →
         find_similar_companies lg symbol (some ref) pool limit =
           .ok ((sortRanked (fun a b => b.similarity_score ≤ a.similarity_score)
                  (scoredCandidates lg symbol ref rmc pool)).take limit)
               (filteredPool symbol pool).length
               (scoredCandidates lg symbol ref rmc pool).length))) := by
  refine ⟨rfl, ?_, ?_⟩
  · intro ref
    have hdef : find_similar_companies lg symbol (some ref) pool limit =
        find_similar_given_ref lg symbol ref pool limit := rfl
    rcases hmc : ref.market_cap with _ | rmc
    · rw [hdef, given_ref_none lg symbol ref pool limit hmc]
      simp
    · rw [hdef, given_ref_some lg symbol ref pool limit rmc hmc]
      by_cases hguard : ref.sector = some "N/A" ∨ rmc = 0
      · rw [if_pos hguard]
        rcases hguard with hs | hz
        · simp [hs]
        · simp [hz]
      · rw [if_neg hguard]
        push_neg at hguard
        by_cases hempty : (filteredPool symbol pool).isEmpty
        · rw [if_pos hempty]
          simp [hguard.1, hguard.2]
        · rw [if_neg hempty]
          simp [hguard.1, hguard.2]
  · intro ref rmc hmc hsec hz
    have hguard : ¬(ref.sector = some "N/A" ∨ rmc = 0) := by tauto
    have hdef : find_similar_companies lg symbol (some ref) pool limit =
        find_similar_given_ref lg symbol ref pool limit := rfl
    constructor
    · rw [hdef, given_ref_some lg symbol ref pool limit rmc hmc, if_neg hguard]
      by_cases hempty : (filteredPool symbol pool).isEmpty
      · rw [if_pos hempty]
        exact iff_of_true rfl (List.isEmpty_iff.mp hempty)
      · rw [if_neg hempty]
        refine iff_of_false (fun hcon => by cases hcon) ?_
        intro hcon
        exact hempty (List.isEmpty_iff.mpr hcon)
    · intro hne
      rw [hdef, given_ref_some lg symbol ref pool limit rmc hmc, if_neg hguard,
        if_neg (fun hcon => hne (List.isEmpty_iff.mp hcon))]

/-- C9 counterexample: a reference with an *absent* (NULL) sector is not
rejected: the code only checks for the string `"N/A"`, so the call proceeds
and returns a successful result — here with an empty list, since the only
candidate's fetch fails. -/
theorem C9_counterexample :
    refNullSector.sector = none ∧
    find_similar_companies log10Stub "REF9" (some refNullSector)
      [⟨"CANDX", none⟩] 10 = .ok [] 1 0 := by
  refine ⟨rfl, ?_⟩
  have hne : pyUpper "CANDX" ≠ pyUpper "REF9" := by decide
  norm_num [find_similar_companies, find_similar_given_ref, filteredPool,
    scoredCandidates, processCandidate, refNullSector, sortRanked, hne]
  intro hcon
  cases hcon

/-- C9 witness: the `"N/A"`-sector reference is rejected as insufficient. -/
theorem C9_witness :
    find_similar_companies log10Stub "R9" (some refNA) [] 10 =
      .insufficientRefData :=
  ((C9_error_results log10Stub "R9" ([] : List Candidate) 10).2.1 refNA).mpr
    (Or.inl rfl)

theorem filterGE_some {m : ℚ} {x : Option ℚ} (h : filterGE (some m) x = true) :
    ∃ v, x = some v ∧ m ≤ v := by
  cases x with
  | none => simp [filterGE] at h
  | some v => exact ⟨v, rfl, by simpa [filterGE] using h⟩

theorem filterLE_some {m : ℚ} {x : Option ℚ} (h : filterLE (some m) x = true) :
    ∃ v, x = some v ∧ v ≤ m := by
  cases x with
  | none => simp [filterLE] at h
  | some v => exact ⟨v, rfl, by simpa [filterLE] using h⟩

theorem filterLEorNull_some {m : ℚ} {x : Option ℚ}
    (h : filterLEorNull (some m) x = true) :
    x = none ∨ ∃ v, x = some v ∧ v ≤ m := by
  cases x with
  | none => exact Or.inl rfl
  | some v => exact Or.inr ⟨v, rfl, by simpa [filterLEorNull] using h⟩

theorem filterSector_some {sectors : List String} {sec : Option String}
    (hne : sectors ≠ []) (h : filterSector sectors sec = true) :
    ∃ s, sec = some s ∧ s ∈ sectors := by
  cases sectors with
  | nil => exact absurd rfl hne
  | cons a as =>
    cases sec with
    | none => simp [filterSector] at h
    | some s =>
      refine ⟨s, rfl, ?_⟩
      have hc : (a :: as).contains s = true := by simpa [filterSector] using h
      simpa using hc

/-- C4 (amended): every symbol returned by `screen_database_initial`
satisfies each supplied threshold, with the averages and the CAGR recomputed
from the raw stored fundamentals (all rows of the symbol with fiscal year ≥
2020), with one exception the counterexample forces: the maximum
debt-to-equity clause is satisfied vacuously when the symbol's latest-year
debt-to-equity is absent (`... OR l.debt_to_equity IS NULL`). -/
theorem C4_screen_conjunctive_filters (pw : ℚ → ℚ → ℚ) (stocks : List StockRow)
    (fund : List FundRow) (own : List OwnershipRow) (p : ScreenFilters)
    (e : ScreenEntry) (h : e ∈ screen_database_initial pw stocks fund own p) :
    (∀ m, p.min_roic = some m →
      ∃ v, sqlAvg ((histRows fund e.symbol).map (fun r => r.data.roic)) = some v ∧
        m ≤ v) ∧
    (∀ m, p.min_roe = some m →
      ∃ v, sqlAvg ((histRows fund e.symbol).map (fun r => r.data.roe)) = some v ∧
        m ≤ v) ∧
    (∀ m, p.min_profit_margin = some m →
      ∃ v, sqlAvg ((histRows fund e.symbol).map (fun r => r.data.profit_margin)) =
        some v ∧ m ≤ v) ∧
    (∀ m, p.max_debt_to_equity = some m →
      (latestFundRow fund e.symbol).bind (fun r => r.data.debt_to_equity) = none ∨
      ∃ v, (latestFundRow fund e.symbol).bind (fun r => r.data.debt_to_equity) =
        some v ∧ v ≤ m) ∧
    (∀ m, p.min_market_cap = some m → ∃ v, e.market_cap = some v ∧ m ≤ v) ∧
    (∀ m, p.max_market_cap = some m → ∃ v, e.market_cap = some v ∧ v ≤ m) ∧
    (p.sectors ≠ [] → ∃ sec, e.sector = some sec ∧ sec ∈ p.sectors) ∧
    (∀ m, p.min_revenue_growth = some m →
      ∃ v, revenueCagr pw ((histRows fund e.symbol).map (fun r => r.data.revenue)) =
        some v ∧ m ≤ v) := by
  rcases screen_mem_inv h with ⟨hpass, s, _, hrow⟩
  obtain ⟨_, _, _, _, hroic, hroe, hpm, hcagr, hde⟩ := screenRow_some_inv hrow
  simp only [passesFilters, Bool.and_eq_true] at hpass
  obtain ⟨⟨⟨⟨⟨⟨⟨h1, h2⟩, h3⟩, h4⟩, h5⟩, h6⟩, h7⟩, h8⟩ := hpass
  refine ⟨?_, ?_, ?_, ?_, ?_, ?_, ?_, ?_⟩
  · intro m hm
    rw [hm] at h1
    rcases filterGE_some h1 with ⟨v, hv, hle⟩
    exact ⟨v, by rw [← hroic]; exact hv, hle⟩
  · intro m hm
    rw [hm] at h2
    rcases filterGE_some h2 with ⟨v, hv, hle⟩
    exact ⟨v, by rw [← hroe]; exact hv, hle⟩
  · intro m hm
    rw [hm] at h3
    rcases filterGE_some h3 with ⟨v, hv, hle⟩
    exact ⟨v, by rw [← hpm]; exact hv, hle⟩
  · intro m hm
    rw [hm] at h4
    rcases filterLEorNull_some h4 with hnone | ⟨v, hv, hle⟩
    · exact Or.inl (by rw [← hde]; exact hnone)
    · exact Or.inr ⟨v, by rw [← hde]; exact hv, hle⟩
  · intro m hm
    rw [hm] at h5
    exact filterGE_some h5
  · intro m hm
    rw [hm] at h6
    exact filterLE_some h6
  · intro hne
    exact filterSector_some hne h7
  · intro m hm
    rw [hm] at h8
    rcases filterGE_some h8 with ⟨v, hv, hle⟩
    exact ⟨v, by rw [← hcagr]; exact hv, hle⟩

theorem screenRow_onAAA : screenRow powStub fundC4 [] stockAAA = some entryAAA := by
  norm_num [screenRow, histRows, fundC4, stockAAA, stockDataTech, stockDataNone,
    fdRoic, fundDataNone, sqlAvg, sqlMin, sqlMax, sqlVals, revenueCagr,
    latestFundRow, get_latest_fundamentals_annual, pickLatestFund, latestOwnRow,
    pickLatestOwn, entryAAA, List.filter_cons, List.filterMap_cons,
    List.foldl_cons, List.foldl_nil]

theorem screen_onC4 :
    screen_database_initial powStub [stockAAA] fundC4 [] pC4 = [entryAAA] := by
  have hfm : ([stockAAA].filterMap (screenRow powStub fundC4 [])) = [entryAAA] := by
    rw [List.filterMap_cons, screenRow_onAAA]
    exact rfl
  have hpass : passesFilters pC4 entryAAA = true := by
    norm_num [passesFilters, filterGE, filterLE, filterLEorNull, filterSector,
      pC4, noFilters, entryAAA]
  unfold screen_database_initial
  rw [hfm, List.filter_cons, hpass, if_pos rfl]
  simp [sortRanked, insertRanked, List.take_of_length_le, pC4, noFilters]

theorem screen_onW4 :
    screen_database_initial powStub [stockAAA] fundC4 [] pW4 = [entryAAA] := by
  have hfm : ([stockAAA].filterMap (screenRow powStub fundC4 [])) = [entryAAA] := by
    rw [List.filterMap_cons, screenRow_onAAA]
    exact rfl
  have hpass : passesFilters pW4 entryAAA = true := by
    norm_num [passesFilters, filterGE, filterLE, filterLEorNull, filterSector,
      pW4, noFilters, entryAAA]
  unfold screen_database_initial
  rw [hfm, List.filter_cons, hpass, if_pos rfl]
  simp [sortRanked, insertRanked, List.take_of_length_le, pW4, noFilters]

/-- C4 counterexample: with a maximum debt-to-equity filter of 1/2 supplied,
the screener still returns "AAA", whose latest-year debt-to-equity is absent
(`NULL`) — the symbol does not demonstrably satisfy the threshold, because
the SQL clause lets `NULL` pass. -/
theorem C4_counterexample :
    pC4.max_debt_to_equity = some (1/2) ∧
    (screen_database_initial powStub [stockAAA] fundC4 [] pC4).map
      (fun e => (e.symbol, e.debt_to_equity)) = [("AAA", none)] := by
  refine ⟨rfl, ?_⟩
  rw [screen_onC4]
  rfl

/-- C4 witness: with a minimum-ROIC filter, the returned symbol's
independently recomputed window-average ROIC meets the threshold. -/
theorem C4_witness :
    ∃ v, sqlAvg ((histRows fundC4 entryAAA.symbol).map (fun r => r.data.roic)) =
      some v ∧ 1/20 ≤ v := by
  have h := C4_screen_conjunctive_filters powStub [stockAAA] fundC4 [] pW4 entryAAA
    (by rw [screen_onW4]; exact List.mem_singleton.mpr rfl)
  exact h.1 (1/20) rfl

/-- C5 (amended): the stage-1 averages are computed over all stored fiscal
years ≥ 2020 — a fixed cutoff approximating a five-year window at the time
the query was written, not a true 5-year trailing window — and every
returned symbol has at least 3 such years of history. -/
theorem C5_fixed_window_averages (pw : ℚ → ℚ → ℚ) (stocks : List StockRow)
    (fund : List FundRow) (own : List OwnershipRow) (p : ScreenFilters)
    (e : ScreenEntry) (h : e ∈ screen_database_initial pw stocks fund own p) :
    3 ≤ (histRows fund e.symbol).length ∧
    e.roic = sqlAvg ((histRows fund e.symbol).map (fun r => r.data.roic)) ∧
    e.roe = sqlAvg ((histRows fund e.symbol).map (fun r => r.data.roe)) ∧
    e.profit_margin =
      sqlAvg ((histRows fund e.symbol).map (fun r => r.data.profit_margin)) := by
  rcases screen_mem_inv h with ⟨_, s, _, hrow⟩
  obtain ⟨hyears, _, _, _, hroic, hroe, hpm, _, _⟩ := screenRow_some_inv hrow
  exact ⟨hyears, hroic, hroe, hpm⟩

theorem screenRow_onAAA5 :
    screenRow powStub fundC5 [] stockAAA = some entryAAA5 := by
  norm_num [screenRow, histRows, fundC5, stockAAA, stockDataTech, stockDataNone,
    fdRoic, fundDataNone, sqlAvg, sqlMin, sqlMax, sqlVals, revenueCagr,
    latestFundRow, get_latest_fundamentals_annual, pickLatestFund, latestOwnRow,
    pickLatestOwn, entryAAA5, List.filter_cons, List.filterMap_cons,
    List.foldl_cons, List.foldl_nil]

theorem screen_onC5 :
    screen_database_initial powStub [stockAAA] fundC5 [] noFilters = [entryAAA5] := by
  have hfm : ([stockAAA].filterMap (screenRow powStub fundC5 [])) = [entryAAA5] := by
    rw [List.filterMap_cons, screenRow_onAAA5]
    exact rfl
  have hpass : passesFilters noFilters entryAAA5 = true := by
    norm_num [passesFilters, filterGE, filterLE, filterLEorNull, filterSector,
      noFilters, entryAAA5]
  unfold screen_database_initial
  rw [hfm, List.filter_cons, hpass, if_pos rfl]
  simp [sortRanked, insertRanked, List.take_of_length_le, noFilters]

/-- C5 counterexample: with six stored years 2020–2025, the query averages
all six (giving 5/6 here), while the 5-year trailing average over the five
most recent years is 1 — the computed value is not a 5-year trailing
average. -/
theorem C5_counterexample :
    (screen_database_initial powStub [stockAAA] fundC5 [] noFilters).map
      (fun e => e.roic) = [some (5/6)] ∧
    trailingFiveYearAvgRoic fundC5 "AAA" = some 1 ∧
    ¬(some ((5:ℚ)/6) = some (1:ℚ)) := by
  refine ⟨by rw [screen_onC5]; simp [entryAAA5], ?_, by norm_num⟩
  norm_num [trailingFiveYearAvgRoic, fundC5, sortRanked, insertRanked, sqlAvg,
    sqlVals, fdRoic, fundDataNone, List.filter_cons, List.filterMap_cons,
    List.foldl_cons, List.foldl_nil, List.take]

/-- C5 witness: in the `fundC5` scenario the returned entry's averages are
exactly the ≥ 2020-window recomputations and six ≥ 3 years are present. -/
theorem C5_witness :
    3 ≤ (histRows fundC5 entryAAA5.symbol).length ∧
    entryAAA5.roic =
      sqlAvg ((histRows fundC5 entryAAA5.symbol).map (fun r => r.data.roic)) ∧
    entryAAA5.roe =
      sqlAvg ((histRows fundC5 entryAAA5.symbol).map (fun r => r.data.roe)) ∧
    entryAAA5.profit_margin =
      sqlAvg ((histRows fundC5 entryAAA5.symbol).map (fun r => r.data.profit_margin)) :=
  C5_fixed_window_averages powStub [stockAAA] fundC5 [] noFilters entryAAA5
    (by rw [screen_onC5]; exact List.mem_singleton.mpr rfl)

theorem sqlVals_map_some (l : List ℚ) : sqlVals (l.map some) = l := by
  induction l with
  | nil => rfl
  | cons a as ih => simp [sqlVals, List.filterMap_cons, ih]

/-- C6: the revenue CAGR of `screen_database_initial` — defined only when
both revenue extremes are positive and at least 2 periods exist — is
strictly positive on every strictly increasing positive series of length ≥
3, and exactly 0 on a flat positive series.  Assumed of the SQL `POWER`
parameter: only that a base above 1 raised to a positive exponent exceeds 1
and that base 1 gives 1, which the real function satisfies. -/
theorem C6_cagr_monotonicity (pw : ℚ → ℚ → ℚ)
    (hgt : ∀ x y : ℚ, 1 < x → 0 < y → 1 < pw x y)
    (hone : ∀ y : ℚ, pw 1 y = 1) :
    (∀ revs : List ℚ, revs.Pairwise (· < ·) → (∀ r ∈ revs, 0 < r) →
      3 ≤ revs.length → ∃ v, revenueCagr pw (revs.map some) = some v ∧ 0 < v) ∧
    (∀ (c : ℚ) (n : ℕ), 0 < c → 3 ≤ n →
      revenueCagr pw ((List.replicate n c).map some) = some 0) := by
  constructor
  · intro revs hpair hpos hlen
    match revs, hpair, hpos, hlen with
    | a :: b :: rest, hpair, hpos, hlen =>
      have hab : a < b := (List.pairwise_cons.mp hpair).1 b (List.mem_cons_self b rest)
      have hminEq : sqlMin ((a :: b :: rest).map some) =
          some ((b :: rest).foldl min a) := by
        simp [sqlMin, sqlVals, List.filterMap_cons]
      have hmaxEq : sqlMax ((a :: b :: rest).map some) =
          some ((b :: rest).foldl max a) := by
        simp [sqlMax, sqlVals, List.filterMap_cons]
      have hminPos : 0 < (b :: rest).foldl min a := by
        rcases foldl_min_mem (b :: rest) a with hm | hm
        · rw [hm]; exact hpos a (List.mem_cons_self a _)
        · exact hpos _ (List.mem_cons_of_mem a hm)
      have hminA : (b :: rest).foldl min a ≤ a := foldl_min_le_init (b :: rest) a
      have hmaxB : b ≤ (b :: rest).foldl max a :=
        le_foldl_max_of_mem (b :: rest) b (List.mem_cons_self b rest) a
      have hlt : (b :: rest).foldl min a < (b :: rest).foldl max a :=
        lt_of_le_of_lt hminA (lt_of_lt_of_le hab hmaxB)
      have hratio : 1 < (b :: rest).foldl max a / (b :: rest).foldl min a :=
        (one_lt_div hminPos).mpr hlt
      have hexp : 0 < 1 / ((((a :: b :: rest).map some).length : ℚ) - 1) := by
        have : 2 ≤ ((a :: b :: rest).map some).length := by simp
        have h2 : (2:ℚ) ≤ (((a :: b :: rest).map some).length : ℚ) := by
          exact_mod_cast this
        have : (0:ℚ) < (((a :: b :: rest).map some).length : ℚ) - 1 := by linarith
        positivity
      refine ⟨pw ((b :: rest).foldl max a / (b :: rest).foldl min a)
        (1 / ((((a :: b :: rest).map some).length : ℚ) - 1)) - 1, ?_, ?_⟩
      · simp only [revenueCagr, hminEq, hmaxEq]
        rw [if_pos ⟨hminPos, lt_trans hminPos hlt, by simp⟩]
      · have := hgt _ _ hratio hexp
        linarith
  · intro c n hc hn
    obtain ⟨k, rfl⟩ : ∃ k, n = k + 1 := ⟨n - 1, by omega⟩
    have hrep : List.replicate (k + 1) c = c :: List.replicate k c :=
      List.replicate_succ c k
    have hminEq : sqlMin ((List.replicate (k + 1) c).map some) =
        some ((List.replicate k c).foldl min c) := by
      rw [hrep]
      simp [sqlMin, sqlVals, List.filterMap_cons]
    have hmaxEq : sqlMax ((List.replicate (k + 1) c).map some) =
        some ((List.replicate k c).foldl max c) := by
      rw [hrep]
      simp [sqlMax, sqlVals, List.filterMap_cons]
    have hminC : (List.replicate k c).foldl min c = c := by
      rcases foldl_min_mem (List.replicate k c) c with hm | hm
      · exact hm
      · exact List.eq_of_mem_replicate hm
    have hmaxC : (List.replicate k c).foldl max c = c := by
      rcases foldl_max_mem (List.replicate k c) c with hm | hm
      · exact hm
      · exact List.eq_of_mem_replicate hm
    simp only [revenueCagr, hminEq, hmaxEq, hminC, hmaxC]
    rw [if_pos ⟨hc, hc, by simp; omega⟩]
    rw [div_self (ne_of_gt hc), hone]
    norm_num

/-- C6 witness: the strictly increasing series [1, 2, 3] has positive CAGR
and the flat series [5, 5, 5] has CAGR 0, for a concrete power stand-in. -/
theorem C6_witness :
    (∃ v, revenueCagr powStub ([1, 2, 3].map some) = some v ∧ 0 < v) ∧
    revenueCagr powStub ((List.replicate 3 (5:ℚ)).map some) = some 0 := by
  have hgt : ∀ x y : ℚ, 1 < x → 0 < y → 1 < powStub x y := by
    intro x y hx _
    rw [powStub, if_pos hx]
    norm_num
  have hone : ∀ y : ℚ, powStub 1 y = 1 := by
    intro y
    rw [powStub, if_neg (by norm_num)]
  constructor
  · exact (C6_cagr_monotonicity powStub hgt hone).1 [1, 2, 3] (by norm_num)
      (by norm_num) (by norm_num)
  · exact (C6_cagr_monotonicity powStub hgt hone).2 5 3 (by norm_num) (by norm_num)

end Allocator
